import Mathlib

/-!
Verification development for the webconfig subdocument storage and
aggregation engine.  The Go sources under src/ are embedded shallowly:
pure helpers become Lean functions, the HTTP handler control flow becomes
a function over an explicit request and store state, bytes are lists of
naturals (values 0-255 in reality; no modelled operation depends on the
bound), and fallible code returns Except or Option.
-/

namespace Webconfig

/-- Embedding of Go strings.Split with separator comma: splits at every
comma, the empty string yields a single empty element.  Accumulator based
helper, structural recursion over the character list. -/
def splitCommaAux (cur : List Char) : List Char → List String
  | [] => [String.mk cur.reverse]
  | c :: rest =>
    if c = ',' then String.mk cur.reverse :: splitCommaAux [] rest
    else splitCommaAux (c :: cur) rest

/-- Comma split of a string, the embedding of strings.Split(s, comma)
as used throughout src/util/validator.go. -/
def splitComma (s : String) : List String :=
  splitCommaAux [] s.data

/-- From src/util/validator.go ValidateMac: length must be 12 and every
character code must lie in 48..70 excluding 58..64, i.e. the digits and
the uppercase letters A to F.  Go checks the byte length and iterates
runes; a rune outside ASCII is at least 128 and fails the range test, so
the character level embedding accepts exactly the same strings. -/
def ValidateMac (mac : String) : Bool :=
  mac.length == 12 && mac.data.all (fun r =>
    !(r.toNat < 48 || r.toNat > 70 || (r.toNat > 57 && r.toNat < 65)))

/-- From src/util/validator.go ValidatePokeQuery.  The supported doc and
route sets live in the common package (outside src/), so they are
parameters.  Go url.Values.Get returns the empty string for an absent
key, so doc and route are plain strings with empty meaning absent. -/
def ValidatePokeQuery (supportedPokeDocs supportedPokeRoutes : List String)
    (doc route : String) : Except String String :=
  if doc.length > 0 then
    match (splitComma doc).find? (fun n => !supportedPokeDocs.contains n) with
    | some n => Except.error ("invalid query parameter: " ++ n)
    | none => Except.ok doc
  else if route.length > 0 then
    if !supportedPokeRoutes.contains route then
      Except.error ("invalid query parameter: " ++ route)
    else Except.ok route
  else Except.ok "root"

/-- The single error value common.ErrInvalidQueryParams returned on every
rejection path of ValidateQueryParams. -/
def errInvalidQueryParams : String := "invalid query parameters"

/-- From src/util/validator.go ValidateQueryParams.  Inputs: the list of
group_id query values (absent key gives the empty list), the valid
subdocument id set (the keys of the injected map; the bit values are
never read), and the If-None-Match header value (absent header gives the
empty string, as Go http.Header.Get does).  The checks mirror the Go
code in order: group_id present, split of the first value, first id
equals root, every later id in the valid set, header nonempty, token
count equals id count. -/
def ValidateQueryParams (groupIdValues : List String)
    (validSubdocIds : List String) (ifNoneMatch : String) :
    Except String Unit :=
  match groupIdValues with
  | [] => Except.error errInvalidQueryParams
  | groupId :: _ =>
    let subdocIds := splitComma groupId
    if subdocIds.length == 0 then Except.error errInvalidQueryParams
    else if !(subdocIds.headD "" == "root") then
      Except.error errInvalidQueryParams
    else if !((subdocIds.drop 1).all (fun s => validSubdocIds.contains s)) then
      Except.error errInvalidQueryParams
    else if ifNoneMatch.length == 0 then Except.error errInvalidQueryParams
    else if !((splitComma ifNoneMatch).length == subdocIds.length) then
      Except.error errInvalidQueryParams
    else Except.ok ()

example : ValidateQueryParams ["root,lan"] ["lan"] "1,2" = Except.ok () := rfl

example : ValidateQueryParams ["root"] ["lan"] "" =
    Except.error errInvalidQueryParams := rfl

example : ValidatePokeQuery ["primary", "telemetry"] ["mqtt"] "" "" =
    Except.ok "root" := rfl

example : ValidatePokeQuery ["primary", "telemetry"] ["mqtt"] "primary,hello" "" =
    Except.error "invalid query parameter: hello" := rfl

/-- Opaque byte payloads, one natural per byte. -/
abbrev Bytes := List Nat

/-- Modelled from the spec: the ReferenceStore implementation (the db
layer behind the reference document endpoints) is not under src/, only
its HTTP test src/http/refsubdocument_handler_test.go is.  Per spec 4.1
it is a blob store keyed by reference id; modelled as an association
list from reference id to bytes. -/
abbrev RefStore := List (String × Bytes)

/-- Modelled from the spec: ReferenceStore Put(refId, bytes) is
create-or-overwrite, last-write-wins. -/
def refPut (st : RefStore) (refId : String) (b : Bytes) : RefStore :=
  (refId, b) :: st.filter (fun p => !(p.1 == refId))

/-- Modelled from the spec: ReferenceStore Get(refId) returns the stored
bytes or NotFound (none). -/
def refGet (st : RefStore) (refId : String) : Option Bytes :=
  (st.find? (fun p => p.1 == refId)).map Prod.snd

/-- Modelled from the spec: ReferenceStore Delete(refId) removes the
entry. -/
def refDelete (st : RefStore) (refId : String) : RefStore :=
  st.filter (fun p => !(p.1 == refId))

/-- Modelled from the spec: the external GET endpoint for a reference
document answers 200 with the bytes, or 404 with no body. -/
def refGetResponse (st : RefStore) (refId : String) : Nat × Option Bytes :=
  match refGet st refId with
  | some b => (200, some b)
  | none => (404, none)

/-- Modelled from the spec: the external POST endpoint always answers
200 and stores the body bytes. -/
def refPostResponse (st : RefStore) (refId : String) (b : Bytes) :
    Nat × RefStore :=
  (200, refPut st refId b)

/-- Modelled from the spec: the external DELETE endpoint answers 200 and
removes the entry. -/
def refDeleteResponse (st : RefStore) (refId : String) : Nat × RefStore :=
  (200, refDelete st refId)

/-- Modelled from the spec: a subdocument payload per spec 3 and 4.2 is
either owned inline bytes or an indirection holding a reference id. -/
inductive Payload where
  | inline (b : Bytes)
  | indirection (refId : String)

/-- Modelled from the spec: the per device subdocument table, an
association list from subdocument id to payload, for one fixed device. -/
abbrev SubdocStore := List (String × Payload)

/-- Lookup of the payload linked to a subdocument id. -/
def subdocLookup (subs : SubdocStore) (subdocId : String) : Option Payload :=
  (subs.find? (fun p => p.1 == subdocId)).map Prod.snd

/-- Modelled from the spec: SubdocumentLinker Resolve per spec 4.2
returns inline bytes directly, dereferences an indirection through
ReferenceStore Get, and yields none (absent) for a never provisioned id
or a dangling reference. -/
def resolve (refs : RefStore) (subs : SubdocStore) (subdocId : String) :
    Option Bytes :=
  match subdocLookup subs subdocId with
  | none => none
  | some (Payload.inline b) => some b
  | some (Payload.indirection r) => refGet refs r

/-- Modelled from the spec: the ConfigAggregator GetConfig of spec 4.3
(its implementation is not under src/; only the end to end test
src/http/refsubdocument_handler_test.go is).  Every non root id of the
group is resolved, absent resolutions are discarded with no error, and
the present parts are returned in group order with status 200. -/
def getConfig (refs : RefStore) (subs : SubdocStore) (group : List String) :
    Nat × List (String × Bytes) :=
  (200, (group.filter (fun id => !(id == "root"))).filterMap
    (fun id => (resolve refs subs id).map (fun b => (id, b))))

/-- A small JSON value model used for the telemetry catalogs: objects
are ordered field lists, arrays are ordered element lists. -/
inductive JVal where
  | null
  | boolean (b : Bool)
  | num (n : Int)
  | str (s : String)
  | arr (xs : List JVal)
  | obj (fields : List (String × JVal))

/-- First value stored under a key in a JSON object field list. -/
def lookupField (fields : List (String × JVal)) (key : String) :
    Option JVal :=
  (fields.find? (fun p => p.1 == key)).map Prod.snd

/-- Replace the value at the first occurrence of a key, keeping every
other field and the field order unchanged. -/
def setField (fields : List (String × JVal)) (key : String) (v : JVal) :
    List (String × JVal) :=
  match fields with
  | [] => []
  | (k, w) :: rest =>
    if k == key then (k, v) :: rest else (k, w) :: setField rest key v

/-- Modelled from the spec: util.AppendProfiles is not under src/, only
its test src/util/string_test.go is.  Per spec 4.4 step 5 the base
catalog is a JSON object with a profiles array, the secondary catalog a
bare JSON array, and the merge appends every secondary element onto the
base profiles array, base order first.  A nil secondary (how the
handler encodes a secondary Not-Found) becomes an empty array.  Any
shape mismatch is a merge error (none). -/
def AppendProfiles (base : JVal) (extra : Option JVal) : Option JVal :=
  match base with
  | JVal.obj fields =>
    match lookupField fields "profiles" with
    | some (JVal.arr baseProfiles) =>
      match extra with
      | none => some (JVal.obj (setField fields "profiles"
          (JVal.arr (baseProfiles ++ []))))
      | some (JVal.arr extraProfiles) => some (JVal.obj (setField fields
          "profiles" (JVal.arr (baseProfiles ++ extraProfiles))))
      | some _ => none
    | _ => none
  | _ => none

/-- The constant notFoundProfileText of src/http/supplementary_handler.go,
the literal empty catalog substituted for a primary Not-Found. -/
def notFoundProfileText : String := "\x7b\"profiles\":[]\x7d"

/-- The parsed form of notFoundProfileText: an object whose only field
is an empty profiles array. -/
def notFoundCatalog : JVal := JVal.obj [("profiles", JVal.arr [])]

/-- Result of the GetRootDocument store call in the handler: the stored
root document, a db Not-Found, or any other db error. -/
inductive RootDocResult where
  | found (queryParams : String)
  | dbNotFound
  | dbError

/-- An upstream fetch failure: a common.RemoteHttpError carrying the
upstream status, or any other (non remote) error. -/
inductive FetchErr where
  | remote (status : Nat)
  | other

/-- Outcome of one upstream fetch: the body (the handler also receives
body bytes alongside an error) and an optional error.  Catalog bodies
are modelled at the JSON value level. -/
structure Fetch where
  body : JVal
  err : Option FetchErr

/-- Handler outcome: an error response with a status code, or a 200
multipart response wrapping the final profile catalog bytes. -/
inductive HandlerResult where
  | errorResp (status : Nat)
  | success (body : JVal)

/-- The two feature switches read by the handler. -/
structure ServerCfg where
  supplementaryAppendingEnabled : Bool
  upstreamProfilesEnabled : Bool

/-- From src/http/supplementary_handler.go
MultipartSupplementaryHandler, lines 56-168, the control flow after the mac
and response writer checks.  The root document is fetched only when a
switch is on; a db error other than Not-Found is a 500.  A primary
remote 404 with the upstream source enabled sets xconfNotFound and
continues, otherwise a primary error surfaces (remote status, else
500).  The secondary source runs only when the upstream switch is on
and the stored root document has nonempty query parameters; there a
secondary remote 404 becomes a nil secondary catalog, any other
secondary error surfaces, xconfNotFound substitutes the empty catalog
for the base, and the catalogs are merged (merge failure is a 500).
Without the secondary branch the primary body passes through
unchanged.  The final multipart wrap is modelled as success carrying
the profile bytes. -/
def MultipartSupplementaryHandler (cfg : ServerCfg)
    (rootdocResult : RootDocResult) (primary secondary : Fetch) :
    HandlerResult :=
  let needRoot := cfg.supplementaryAppendingEnabled ||
    cfg.upstreamProfilesEnabled
  let rootdocStep : Except Nat (Option String) :=
    if needRoot then
      match rootdocResult with
      | RootDocResult.found qp => Except.ok (some qp)
      | RootDocResult.dbNotFound => Except.ok none
      | RootDocResult.dbError => Except.error 500
    else Except.ok none
  match rootdocStep with
  | Except.error s => HandlerResult.errorResp s
  | Except.ok rootdoc =>
    let primaryStep : Except Nat Bool :=
      match primary.err with
      | none => Except.ok false
      | some (FetchErr.remote status) =>
        if status == 404 then
          if cfg.upstreamProfilesEnabled then Except.ok true
          else Except.error status
        else Except.error status
      | some FetchErr.other => Except.error 500
    match primaryStep with
    | Except.error s => HandlerResult.errorResp s
    | Except.ok xconfNotFound =>
      let hasQueryParams :=
        match rootdoc with
        | some qp => qp.length > 0
        | none => false
      if cfg.upstreamProfilesEnabled && hasQueryParams then
        let secondaryStep : Except Nat (Option JVal) :=
          match secondary.err with
          | none => Except.ok (some secondary.body)
          | some (FetchErr.remote status) =>
            if status == 404 then Except.ok none
            else Except.error status
          | some FetchErr.other => Except.error 500
        match secondaryStep with
        | Except.error s => HandlerResult.errorResp s
        | Except.ok extraProfiles =>
          let base := if xconfNotFound then notFoundCatalog else primary.body
          match AppendProfiles base extraProfiles with
          | some merged => HandlerResult.success merged
          | none => HandlerResult.errorResp 500
      else HandlerResult.success primary.body

/-- The comma split helper never produces the empty list. -/
theorem splitCommaAux_ne_nil (l cur : List Char) :
    splitCommaAux cur l ≠ [] := by
  induction l generalizing cur with
  | nil => simp [splitCommaAux]
  | cons c rest ih =>
    simp only [splitCommaAux]
    by_cases hc : c = ','
    · simp [hc]
    · simp only [if_neg hc]
      exact ih (c :: cur)

/-- The comma split of any string is a nonempty list. -/
theorem splitComma_ne_nil (s : String) : splitComma s ≠ [] :=
  splitCommaAux_ne_nil s.data []

/-- Putting a reference document makes it the one found under its id. -/
theorem refGet_refPut_self (st : RefStore) (r : String) (b : Bytes) :
    refGet (refPut st r b) r = some b := by
  unfold refGet refPut
  rw [List.find?_cons_of_pos _ (by simp)]
  rfl

/-- Deleting a reference id removes every entry under it. -/
theorem refGet_refDelete_self (st : RefStore) (r : String) :
    refGet (refDelete st r) r = none := by
  unfold refGet refDelete
  rw [List.find?_eq_none.mpr]
  · rfl
  · intro p hp
    have h := (List.mem_filter.mp hp).2
    simp only [Bool.not_eq_true'] at h
    simp [h]

/-- Claim C2: for every reference id r and every byte sequence b
(arbitrary byte values, so including non UTF-8 binary content), a
ReferenceStore Put(r, b) followed by Get(r) returns exactly b. -/
theorem refstore_put_get_roundtrip (st : RefStore) (r : String) (b : Bytes) :
    refGet (refPut st r b) r = some b :=
  refGet_refPut_self st r b

/-- Claim C5: for every reference id r, Delete(r) itself answers 200,
and a Get(r) on the resulting store answers 404 with no body at the
external interface. -/
theorem refstore_delete_then_get_notfound (st : RefStore) (r : String) :
    (refDeleteResponse st r).1 = 200
    ∧ refGetResponse (refDeleteResponse st r).2 r = (404, none) := by
  refine ⟨rfl, ?_⟩
  unfold refGetResponse refDeleteResponse
  rw [refGet_refDelete_self]

/-- Claim C3, counterexample: the string of twelve lowercase hex digits
aabbccddeeff has length 12 and every character a hexadecimal digit, yet
ValidateMac rejects it, refuting the claimed case insensitivity. -/
theorem validateMac_lowercase_counterexample :
    ValidateMac "aabbccddeeff" = false
    ∧ "aabbccddeeff".length = 12
    ∧ ∀ c ∈ "aabbccddeeff".data,
        ('0' ≤ c ∧ c ≤ '9') ∨ ('a' ≤ c ∧ c ≤ 'f') ∨ ('A' ≤ c ∧ c ≤ 'F') := by
  refine ⟨by decide, by decide, by decide⟩

/-- Claim C3, amended: ValidateMac accepts exactly the strings of length
12 whose characters are all decimal digits or uppercase letters A to F;
lowercase hex letters and every other character are rejected. -/
theorem validateMac_uppercase_characterization (mac : String) :
    ValidateMac mac = true ↔
      mac.length = 12
      ∧ ∀ c ∈ mac.data,
          (48 ≤ c.toNat ∧ c.toNat ≤ 57) ∨ (65 ≤ c.toNat ∧ c.toNat ≤ 70) := by
  unfold ValidateMac
  simp only [Bool.and_eq_true, beq_iff_eq, List.all_eq_true]
  constructor
  · rintro ⟨h1, h2⟩
    refine ⟨h1, fun c hc => ?_⟩
    have h3 := h2 c hc
    simp only [Bool.not_eq_true', Bool.or_eq_false_iff, Bool.and_eq_false_iff,
      decide_eq_false_iff_not, Nat.not_lt] at h3
    omega
  · rintro ⟨h1, h2⟩
    refine ⟨h1, fun c hc => ?_⟩
    have h3 := h2 c hc
    simp only [Bool.not_eq_true', Bool.or_eq_false_iff, Bool.and_eq_false_iff,
      decide_eq_false_iff_not, Nat.not_lt]
    omega

/-- Claim C10: with an absent or empty If-None-Match header the request
is rejected for every group and every valid id set, even though the
comma split of the empty header is a one element list that would match
the one element id list of group_id root. -/
theorem validateQueryParams_rejects_empty_header :
    (∀ (groupIdValues validSubdocIds : List String),
      ValidateQueryParams groupIdValues validSubdocIds "" =
        Except.error errInvalidQueryParams)
    ∧ (splitComma "").length = (splitComma "root").length := by
  refine ⟨?_, by decide⟩
  intro groupIdValues validSubdocIds
  cases groupIdValues with
  | nil => rfl
  | cons groupId rest =>
    unfold ValidateQueryParams
    have hlen : ("" : String).length == 0 := by decide
    split_ifs
    all_goals simp_all

/-- A nonempty string has positive length. -/
theorem string_length_pos_of_ne (s : String) (h : s ≠ "") : 0 < s.length := by
  cases s with
  | mk data =>
    cases data with
    | nil => simp at h
    | cons c cs => simp [String.length]

/-- A string of length zero is the empty string. -/
theorem string_eq_empty_of_length_zero (s : String) (h : s.length = 0) :
    s = "" := by
  cases s with
  | mk data =>
    cases data with
    | nil => rfl
    | cons c cs => simp [String.length] at h

/-- Claim C4: given a version token header that is actually present
(the absent or empty header is the subject of the separate implicit
claim), the request is accepted exactly when the comma split id list of
the first group_id value starts with root, every later id belongs to
the injected valid id set, and the comma split version token list has
the same length as the id list; the first offending id, a non root
first element, or a length mismatch is each rejected with the
validation error. -/
theorem validateQueryParams_characterization
    (groupId : String) (rest validSubdocIds : List String)
    (ifNoneMatch : String) (h : ifNoneMatch ≠ "") :
    ValidateQueryParams (groupId :: rest) validSubdocIds ifNoneMatch =
      Except.ok ()
    ↔ ((splitComma groupId).head? = some "root"
       ∧ (∀ s ∈ (splitComma groupId).drop 1, s ∈ validSubdocIds)
       ∧ (splitComma ifNoneMatch).length = (splitComma groupId).length) := by
  obtain ⟨a, t, hsplit⟩ : ∃ a t, splitComma groupId = a :: t := by
    cases hs : splitComma groupId with
    | nil => exact absurd hs (splitComma_ne_nil groupId)
    | cons a t => exact ⟨a, t, rfl⟩
  have hinm : (ifNoneMatch.length == 0) = false := by
    have := string_length_pos_of_ne ifNoneMatch h
    simp
    omega
  simp only [ValidateQueryParams, hsplit]
  split_ifs with h1 h2 h3 h4 h5
  · exact absurd h1 (by simp)
  · have ha : a ≠ "root" := by simpa using h2
    apply iff_of_false (by simp)
    rintro ⟨hhead, -, -⟩
    rw [List.head?_cons, Option.some_inj] at hhead
    exact ha hhead
  · have hbad : ¬ ∀ s ∈ t, s ∈ validSubdocIds := by
      intro hall
      rw [Bool.not_eq_true', List.all_eq_false] at h3
      obtain ⟨x, hx, hnx⟩ := h3
      rw [List.drop_succ_cons, List.drop_zero] at hx
      exact hnx (List.elem_eq_true_of_mem (hall x hx))
    apply iff_of_false (by simp)
    rintro ⟨-, hall, -⟩
    exact hbad (by simpa using hall)
  · rw [hinm] at h4
    exact absurd h4 (by simp)
  · have hne : (splitComma ifNoneMatch).length ≠ (a :: t).length := by
      simpa using h5
    apply iff_of_false (by simp)
    rintro ⟨-, -, hlen⟩
    exact hne hlen
  · have ha : a = "root" := by simpa using h2
    have hall : ∀ s ∈ t, s ∈ validSubdocIds := by
      simp only [Bool.not_eq_true, Bool.not_eq_false', List.all_eq_true,
        List.drop_succ_cons, List.drop_zero] at h3
      intro s hs
      exact List.mem_of_elem_eq_true (h3 s hs)
    have hlen : (splitComma ifNoneMatch).length = (a :: t).length := by
      simpa using h5
    exact iff_of_true rfl ⟨by simp [ha], by simpa using hall, hlen⟩

/-- Claim C4, witness at a concrete accepted request. -/
theorem validateQueryParams_characterization_witness :
    ("1,2" : String) ≠ ""
    ∧ ValidateQueryParams ["root,lan"] ["lan"] "1,2" = Except.ok () := by
  refine ⟨by decide, ?_⟩
  exact (validateQueryParams_characterization "root,lan" [] ["lan"] "1,2"
    (by decide)).mpr ⟨by decide, by decide, by decide⟩

/-- Claim C9: ValidatePokeQuery selects by the doc list when a doc
parameter is present (every comma separated element must be a supported
poke doc, any unsupported element is an error), otherwise by the route
parameter when present (it must be a supported poke route), and defaults
to root with no error when neither is present. -/
theorem validatePokeQuery_characterization
    (supportedPokeDocs supportedPokeRoutes : List String)
    (doc route : String) :
    (doc ≠ "" →
      ((∀ n ∈ splitComma doc, n ∈ supportedPokeDocs) →
        ValidatePokeQuery supportedPokeDocs supportedPokeRoutes doc route =
          Except.ok doc)
      ∧ ((∃ n ∈ splitComma doc, n ∉ supportedPokeDocs) →
        ∃ e, ValidatePokeQuery supportedPokeDocs supportedPokeRoutes doc
          route = Except.error e))
    ∧ (doc = "" → route ≠ "" →
      ((route ∈ supportedPokeRoutes →
        ValidatePokeQuery supportedPokeDocs supportedPokeRoutes doc route =
          Except.ok route)
      ∧ (route ∉ supportedPokeRoutes →
        ∃ e, ValidatePokeQuery supportedPokeDocs supportedPokeRoutes doc
          route = Except.error e)))
    ∧ (doc = "" → route = "" →
      ValidatePokeQuery supportedPokeDocs supportedPokeRoutes doc route =
        Except.ok "root") := by
  refine ⟨?_, ?_, ?_⟩
  · intro hne
    have hpos : 0 < doc.length := string_length_pos_of_ne doc hne
    constructor
    · intro hall
      unfold ValidatePokeQuery
      rw [if_pos hpos]
      have hfind : (splitComma doc).find?
          (fun n => !supportedPokeDocs.contains n) = none := by
        rw [List.find?_eq_none]
        intro x hx
        simp [hall x hx]
      rw [hfind]
    · rintro ⟨n, hn, hcon⟩
      unfold ValidatePokeQuery
      rw [if_pos hpos]
      have hfind : ((splitComma doc).find?
          (fun n => !supportedPokeDocs.contains n)).isSome = true := by
        rw [List.find?_isSome]
        exact ⟨n, hn, by simp [hcon]⟩
      obtain ⟨m, hm⟩ := Option.isSome_iff_exists.mp hfind
      rw [hm]
      exact ⟨_, rfl⟩
  · intro hdoc hroute
    have hd0 : ¬ 0 < doc.length := by simp [hdoc]
    have hrpos : 0 < route.length := string_length_pos_of_ne route hroute
    constructor
    · intro hc
      unfold ValidatePokeQuery
      rw [if_neg hd0, if_pos hrpos]
      simp [hc]
    · intro hc
      unfold ValidatePokeQuery
      rw [if_neg hd0, if_pos hrpos]
      simp [hc]
  · intro hdoc hroute
    have hd0 : ¬ 0 < doc.length := by simp [hdoc]
    have hr0 : ¬ 0 < route.length := by simp [hroute]
    unfold ValidatePokeQuery
    rw [if_neg hd0, if_neg hr0]

/-- Claim C9, witness covering the three selection branches at the
supported sets of the unit tests. -/
theorem validatePokeQuery_characterization_witness :
    ValidatePokeQuery ["primary", "telemetry"] ["mqtt"] "primary,telemetry"
      "" = Except.ok "primary,telemetry"
    ∧ (∃ e, ValidatePokeQuery ["primary", "telemetry"] ["mqtt"]
        "primary,hello" "" = Except.error e)
    ∧ ValidatePokeQuery ["primary", "telemetry"] ["mqtt"] "" "mqtt" =
        Except.ok "mqtt"
    ∧ (∃ e, ValidatePokeQuery ["primary", "telemetry"] ["mqtt"] "" "other"
        = Except.error e)
    ∧ ValidatePokeQuery ["primary", "telemetry"] ["mqtt"] "" "" =
        Except.ok "root" := by
  refine ⟨?_, ?_, ?_, ?_, ?_⟩
  · exact ((validatePokeQuery_characterization ["primary", "telemetry"]
      ["mqtt"] "primary,telemetry" "").1 (by decide)).1 (by decide)
  · exact ((validatePokeQuery_characterization ["primary", "telemetry"]
      ["mqtt"] "primary,hello" "").1 (by decide)).2 ⟨"hello", by decide,
        by decide⟩
  · exact (((validatePokeQuery_characterization ["primary", "telemetry"]
      ["mqtt"] "" "mqtt").2.1 rfl (by decide)).1 (by decide))
  · exact (((validatePokeQuery_characterization ["primary", "telemetry"]
      ["mqtt"] "" "other").2.1 rfl (by decide)).2 (by decide))
  · exact (validatePokeQuery_characterization ["primary", "telemetry"]
      ["mqtt"] "" "").2.2 rfl rfl

/-- After replacing the value stored under a present key, a lookup of
that key sees the new value. -/
theorem lookupField_setField (fields : List (String × JVal)) (key : String)
    (v0 v : JVal) (h : lookupField fields key = some v0) :
    lookupField (setField fields key v) key = some v := by
  induction fields with
  | nil => simp [lookupField] at h
  | cons p rest ih =>
    obtain ⟨k0, w⟩ := p
    by_cases hk : k0 = key
    · simp [setField, lookupField, List.find?, hk]
    · have hk2 : (k0 == key) = false := by simp [hk]
      simp only [setField, lookupField, hk2, Bool.false_eq_true, if_false,
        List.find?] at h ⊢
      exact ih h

/-- Writing back the value a present key already holds leaves the field
list unchanged. -/
theorem setField_self (fields : List (String × JVal)) (key : String)
    (v : JVal) (h : lookupField fields key = some v) :
    setField fields key v = fields := by
  induction fields with
  | nil => rfl
  | cons p rest ih =>
    obtain ⟨k0, w⟩ := p
    by_cases hk : k0 = key
    · have hk2 : (k0 == key) = true := by simp [hk]
      simp only [lookupField, List.find?, hk2, Option.map_some] at h
      simp only [setField, hk2, if_true]
      simp at h
      rw [h]
    · have hk2 : (k0 == key) = false := by simp [hk]
      simp only [lookupField, List.find?, hk2] at h
      simp only [setField, hk2, Bool.false_eq_true, if_false]
      rw [ih h]

/-- Claim C6: for a base catalog that is an object carrying a profiles
array and a secondary catalog that is an array, the merge succeeds and
yields the base object with its profiles array replaced by the base
elements followed by the secondary elements in order (the result stays
a JSON value, hence re-serializable); an empty secondary catalog leaves
the base exactly unchanged. -/
theorem appendProfiles_merge (fields : List (String × JVal))
    (baseProfiles extra : List JVal)
    (h : lookupField fields "profiles" = some (JVal.arr baseProfiles)) :
    AppendProfiles (JVal.obj fields) (some (JVal.arr extra)) =
      some (JVal.obj (setField fields "profiles"
        (JVal.arr (baseProfiles ++ extra))))
    ∧ lookupField (setField fields "profiles"
        (JVal.arr (baseProfiles ++ extra))) "profiles" =
      some (JVal.arr (baseProfiles ++ extra))
    ∧ (extra = [] →
      AppendProfiles (JVal.obj fields) (some (JVal.arr extra)) =
        some (JVal.obj fields)) := by
  refine ⟨?_, ?_, ?_⟩
  · simp only [AppendProfiles, h]
  · exact lookupField_setField fields "profiles" (JVal.arr baseProfiles)
      (JVal.arr (baseProfiles ++ extra)) h
  · intro hempty
    subst hempty
    simp only [AppendProfiles, h, List.append_nil]
    rw [setField_self fields "profiles" (JVal.arr baseProfiles) h]

/-- Claim C6, witness: a two field base catalog merged with a one
element secondary, and with the empty secondary. -/
theorem appendProfiles_merge_witness :
    lookupField [("profiles", JVal.arr [JVal.str "A"]),
        ("other", JVal.null)] "profiles" = some (JVal.arr [JVal.str "A"])
    ∧ AppendProfiles
        (JVal.obj [("profiles", JVal.arr [JVal.str "A"]),
          ("other", JVal.null)])
        (some (JVal.arr [JVal.str "B"])) =
      some (JVal.obj [("profiles", JVal.arr [JVal.str "A", JVal.str "B"]),
        ("other", JVal.null)])
    ∧ AppendProfiles
        (JVal.obj [("profiles", JVal.arr [JVal.str "A"]),
          ("other", JVal.null)])
        (some (JVal.arr [])) =
      some (JVal.obj [("profiles", JVal.arr [JVal.str "A"]),
        ("other", JVal.null)]) := by
  refine ⟨rfl, ?_, ?_⟩
  · exact (appendProfiles_merge
      [("profiles", JVal.arr [JVal.str "A"]), ("other", JVal.null)]
      [JVal.str "A"] [JVal.str "B"] rfl).1
  · exact (appendProfiles_merge
      [("profiles", JVal.arr [JVal.str "A"]), ("other", JVal.null)]
      [JVal.str "A"] [] rfl).2.2 rfl

/-- Claim C1: a subdocument linked by indirection to a reference id with
no reference document resolves to absent, so a config fetch for a group
containing it succeeds with 200 and omits that part while every other
present part is returned with exactly its stored bytes; once the
reference document is created with bytes bb, an identical fetch
succeeds and includes the part with exactly bb. -/
theorem config_dangling_reference (refs : RefStore) (subs : SubdocStore)
    (group : List String) (s r : String) (bb : Bytes)
    (hlink : subdocLookup subs s = some (Payload.indirection r))
    (hdangling : refGet refs r = none)
    (hs : s ∈ group) (hsroot : s ≠ "root") :
    (getConfig refs subs group).1 = 200
    ∧ (∀ b : Bytes, (s, b) ∉ (getConfig refs subs group).2)
    ∧ (∀ id, id ∈ group → id ≠ "root" → ∀ b,
        resolve refs subs id = some b →
        (id, b) ∈ (getConfig refs subs group).2)
    ∧ (getConfig (refPut refs r bb) subs group).1 = 200
    ∧ (s, bb) ∈ (getConfig (refPut refs r bb) subs group).2 := by
  have hres : resolve refs subs s = none := by
    simp only [resolve, hlink]
    exact hdangling
  have hres2 : resolve (refPut refs r bb) subs s = some bb := by
    simp only [resolve, hlink]
    exact refGet_refPut_self refs r bb
  have hmem : ∀ (refs2 : RefStore) (id : String) (b : Bytes),
      id ∈ group → id ≠ "root" → resolve refs2 subs id = some b →
      (id, b) ∈ (getConfig refs2 subs group).2 := by
    intro refs2 id b hid hroot hresolve
    simp only [getConfig]
    apply List.mem_filterMap.mpr
    refine ⟨id, List.mem_filter.mpr ⟨hid, by simp [hroot]⟩, ?_⟩
    rw [hresolve]
    rfl
  refine ⟨rfl, ?_, ?_, rfl, ?_⟩
  · intro b hb
    simp only [getConfig] at hb
    obtain ⟨a, ha, hfa⟩ := List.mem_filterMap.mp hb
    cases hra : resolve refs subs a with
    | none => simp [hra] at hfa
    | some x =>
      rw [hra] at hfa
      simp at hfa
      obtain ⟨haeq, -⟩ := hfa
      rw [haeq] at hra
      rw [hres] at hra
      cases hra
  · intro id hid hroot b hresolve
    exact hmem refs id b hid hroot hresolve
  · exact hmem (refPut refs r bb) s bb hs hsroot hres2

/-- Claim C1, witness: two linked subdocuments, one dangling; the fetch
omits the dangling one, then includes it after the reference document is
created. -/
theorem config_dangling_reference_witness :
    subdocLookup [("defaultrfc", Payload.inline [9, 9]),
        ("defaultdcm", Payload.indirection "ref3")] "defaultdcm" =
      some (Payload.indirection "ref3")
    ∧ refGet [("ref1", [1, 2])] "ref3" = none
    ∧ "defaultdcm" ∈ ["root", "defaultrfc", "defaultdcm"]
    ∧ ("defaultdcm" : String) ≠ "root"
    ∧ (getConfig [("ref1", [1, 2])]
        [("defaultrfc", Payload.inline [9, 9]),
         ("defaultdcm", Payload.indirection "ref3")]
        ["root", "defaultrfc", "defaultdcm"]).1 = 200
    ∧ (∀ b : Bytes, ("defaultdcm", b) ∉ (getConfig [("ref1", [1, 2])]
        [("defaultrfc", Payload.inline [9, 9]),
         ("defaultdcm", Payload.indirection "ref3")]
        ["root", "defaultrfc", "defaultdcm"]).2)
    ∧ ("defaultdcm", [7, 8]) ∈ (getConfig
        (refPut [("ref1", [1, 2])] "ref3" [7, 8])
        [("defaultrfc", Payload.inline [9, 9]),
         ("defaultdcm", Payload.indirection "ref3")]
        ["root", "defaultrfc", "defaultdcm"]).2 := by
  have h := config_dangling_reference [("ref1", [1, 2])]
    [("defaultrfc", Payload.inline [9, 9]),
     ("defaultdcm", Payload.indirection "ref3")]
    ["root", "defaultrfc", "defaultdcm"] "defaultdcm" "ref3" [7, 8]
    rfl rfl (by simp) (by simp)
  exact ⟨rfl, rfl, by simp, by simp, h.1, h.2.1, h.2.2.2.2⟩

/-- A nil secondary catalog is merged exactly like an explicit empty
array catalog. -/
theorem appendProfiles_nil_extra (base : JVal) :
    AppendProfiles base none = AppendProfiles base (some (JVal.arr [])) := by
  unfold AppendProfiles
  cases base with
  | obj fields =>
    cases hf : lookupField fields "profiles" with
    | none => rfl
    | some v => cases v <;> rfl
  | null => rfl
  | boolean b => rfl
  | num n => rfl
  | str s => rfl
  | arr xs => rfl

/-- Claim C7: with the upstream (secondary) source enabled and a stored
root document holding nonempty query parameters, and a primary fetch
that did not abort the request (success, or the Not-Found that the
enabled upstream source absorbs), a secondary fetch failing with remote
Not-Found behaves exactly like a successful secondary fetch of the
empty array catalog, while a secondary fetch failing with any other
remote status surfaces that status and a non remote secondary failure
surfaces 500 — in both cases an error response, never a multipart
response. -/
theorem supplementary_secondary_behavior (cfg : ServerCfg) (qp : String)
    (primary : Fetch) (sb : JVal)
    (hup : cfg.upstreamProfilesEnabled = true)
    (hqp : 0 < qp.length)
    (hprim : primary.err = none ∨
      primary.err = some (FetchErr.remote 404)) :
    (MultipartSupplementaryHandler cfg (RootDocResult.found qp) primary
        ⟨sb, some (FetchErr.remote 404)⟩
      = MultipartSupplementaryHandler cfg (RootDocResult.found qp) primary
        ⟨JVal.arr [], none⟩)
    ∧ (∀ st2 : Nat, st2 ≠ 404 →
        MultipartSupplementaryHandler cfg (RootDocResult.found qp) primary
          ⟨sb, some (FetchErr.remote st2)⟩ = HandlerResult.errorResp st2)
    ∧ (MultipartSupplementaryHandler cfg (RootDocResult.found qp) primary
        ⟨sb, some FetchErr.other⟩ = HandlerResult.errorResp 500) := by
  obtain ⟨sa, up⟩ := cfg
  simp only at hup
  subst hup
  obtain ⟨pb, perr⟩ := primary
  have hcases : perr = none ∨ perr = some (FetchErr.remote 404) := hprim
  refine ⟨?_, ?_, ?_⟩
  · rcases hcases with h | h <;> subst h <;>
      simp [MultipartSupplementaryHandler, hqp, appendProfiles_nil_extra]
  · intro st2 hst2
    rcases hcases with h | h <;> subst h <;>
      simp [MultipartSupplementaryHandler, hqp, hst2]
  · rcases hcases with h | h <;> subst h <;>
      simp [MultipartSupplementaryHandler, hqp]

/-- Claim C7, witness: concrete instances of the Not-Found equivalence
and of both abort cases. -/
theorem supplementary_secondary_behavior_witness :
    (MultipartSupplementaryHandler ⟨false, true⟩
        (RootDocResult.found "a=b")
        ⟨notFoundCatalog, none⟩ ⟨JVal.null, some (FetchErr.remote 404)⟩
      = MultipartSupplementaryHandler ⟨false, true⟩
        (RootDocResult.found "a=b")
        ⟨notFoundCatalog, none⟩ ⟨JVal.arr [], none⟩)
    ∧ (MultipartSupplementaryHandler ⟨false, true⟩
        (RootDocResult.found "a=b")
        ⟨notFoundCatalog, none⟩ ⟨JVal.null, some (FetchErr.remote 503)⟩
      = HandlerResult.errorResp 503)
    ∧ (MultipartSupplementaryHandler ⟨false, true⟩
        (RootDocResult.found "a=b")
        ⟨notFoundCatalog, none⟩ ⟨JVal.null, some FetchErr.other⟩
      = HandlerResult.errorResp 500) := by
  have h := supplementary_secondary_behavior ⟨false, true⟩ "a=b"
    ⟨notFoundCatalog, none⟩ JVal.null rfl (by decide) (Or.inl rfl)
  exact ⟨h.1, h.2.1 503 (by decide), h.2.2⟩

/-- Claim C8, counterexample: the upstream (secondary) source is
enabled, the device has no root document, and the primary fetch fails
with remote Not-Found; the claim demands that the handler substitute
the empty catalog for the base, yet the handler succeeds with the
unsubstituted primary body, which is not the empty catalog. -/
theorem supplementary_primary_notfound_counterexample :
    MultipartSupplementaryHandler ⟨false, true⟩ RootDocResult.dbNotFound
      ⟨JVal.str "gone", some (FetchErr.remote 404)⟩ ⟨JVal.arr [], none⟩
      = HandlerResult.success (JVal.str "gone")
    ∧ JVal.str "gone" ≠ notFoundCatalog := by
  refine ⟨rfl, ?_⟩
  intro h
  exact JVal.noConfusion h

/-- Claim C8, amended: with the secondary source enabled, a primary
Not-Found is never surfaced; the empty catalog is substituted for the
base only on the merge path, i.e. when the device also has a root
document with nonempty stored query parameters, where the request then
behaves exactly as if the primary had succeeded with the empty catalog;
with the secondary source enabled but no root document, or empty stored
query parameters, the primary response body passes through
unsubstituted as a success; with the secondary source disabled, a
primary Not-Found is surfaced as a 404 error response. -/
theorem supplementary_primary_notfound_behavior (cfg : ServerCfg)
    (qp : String) (pb : JVal) (secondary : Fetch) :
    (cfg.upstreamProfilesEnabled = true → 0 < qp.length →
      MultipartSupplementaryHandler cfg (RootDocResult.found qp)
          ⟨pb, some (FetchErr.remote 404)⟩ secondary
        = MultipartSupplementaryHandler cfg (RootDocResult.found qp)
          ⟨notFoundCatalog, none⟩ secondary)
    ∧ (cfg.upstreamProfilesEnabled = true →
      MultipartSupplementaryHandler cfg RootDocResult.dbNotFound
          ⟨pb, some (FetchErr.remote 404)⟩ secondary
        = HandlerResult.success pb)
    ∧ (cfg.upstreamProfilesEnabled = true → qp.length = 0 →
      MultipartSupplementaryHandler cfg (RootDocResult.found qp)
          ⟨pb, some (FetchErr.remote 404)⟩ secondary
        = HandlerResult.success pb)
    ∧ (cfg.upstreamProfilesEnabled = false →
      MultipartSupplementaryHandler cfg (RootDocResult.found qp)
          ⟨pb, some (FetchErr.remote 404)⟩ secondary
        = HandlerResult.errorResp 404) := by
  obtain ⟨sa, up⟩ := cfg
  refine ⟨?_, ?_, ?_, ?_⟩
  · intro hup hqp
    simp only at hup
    subst hup
    simp [MultipartSupplementaryHandler, hqp]
  · intro hup
    simp only at hup
    subst hup
    simp [MultipartSupplementaryHandler]
  · intro hup hqp
    simp only at hup
    subst hup
    simp [MultipartSupplementaryHandler, hqp]
  · intro hup
    simp only at hup
    subst hup
    cases sa <;> simp [MultipartSupplementaryHandler]

/-- Claim C8 amended, witness: all four behaviors at concrete inputs. -/
theorem supplementary_primary_notfound_behavior_witness :
    (MultipartSupplementaryHandler ⟨false, true⟩
        (RootDocResult.found "a=b")
        ⟨JVal.str "gone", some (FetchErr.remote 404)⟩ ⟨JVal.arr [], none⟩
      = MultipartSupplementaryHandler ⟨false, true⟩
        (RootDocResult.found "a=b")
        ⟨notFoundCatalog, none⟩ ⟨JVal.arr [], none⟩)
    ∧ (MultipartSupplementaryHandler ⟨false, true⟩ RootDocResult.dbNotFound
        ⟨JVal.str "gone", some (FetchErr.remote 404)⟩ ⟨JVal.arr [], none⟩
      = HandlerResult.success (JVal.str "gone"))
    ∧ (MultipartSupplementaryHandler ⟨false, true⟩ (RootDocResult.found "")
        ⟨JVal.str "gone", some (FetchErr.remote 404)⟩ ⟨JVal.arr [], none⟩
      = HandlerResult.success (JVal.str "gone"))
    ∧ (MultipartSupplementaryHandler ⟨true, false⟩
        (RootDocResult.found "a=b")
        ⟨JVal.str "gone", some (FetchErr.remote 404)⟩ ⟨JVal.arr [], none⟩
      = HandlerResult.errorResp 404) := by
  refine ⟨?_, ?_, ?_, ?_⟩
  · exact (supplementary_primary_notfound_behavior ⟨false, true⟩ "a=b"
      (JVal.str "gone") ⟨JVal.arr [], none⟩).1 rfl (by decide)
  · exact (supplementary_primary_notfound_behavior ⟨false, true⟩ "a=b"
      (JVal.str "gone") ⟨JVal.arr [], none⟩).2.1 rfl
  · exact (supplementary_primary_notfound_behavior ⟨false, true⟩ ""
      (JVal.str "gone") ⟨JVal.arr [], none⟩).2.2.1 rfl rfl
  · exact (supplementary_primary_notfound_behavior ⟨true, false⟩ "a=b"
      (JVal.str "gone") ⟨JVal.arr [], none⟩).2.2.2 rfl

end Webconfig
